import Mathlib

/-!
Verification of the linkedin_hunter pipeline: a shallow embedding of the
confidence calculator, block detector, retry executor, orchestrator and
profile-URL extraction, with theorems settling the specification claims.

External collaborators (Python stdlib difflib.SequenceMatcher.ratio,
unicodedata NFKD folding, the general regex engine used on the bilingual
block patterns, BeautifulSoup selectors) are modelled as abstract function
parameters; all repository logic, pattern data and the simple regexes the
code relies on (email local-part, word runs, the profile-URL pattern) are
embedded concretely.  Python floats are idealised as rationals.
-/

namespace LinkedInHunter

/-! ## Python-style string primitives (ASCII fragment, on character lists) -/

/-- Python `\s` whitespace characters (ASCII range). -/
def pyWS (c : Char) : Bool :=
  c = ' ' || c = '\t' || c = '\n' || c = '\r' || c = '\x0b' || c = '\x0c'

/-- Python `\w` word characters (ASCII fragment). -/
def wordChar (c : Char) : Bool :=
  c.isAlpha || c.isDigit || c = '_'

/-- `startsWithSeq p s` : the list `s` begins with `p`. -/
def startsWithSeq : List Char → List Char → Bool
  | [], _ => true
  | _ :: _, [] => false
  | p :: ps, c :: cs => p = c && startsWithSeq ps cs

/-- Python `needle in hay` for character lists: contiguous substring. -/
def containsSeq (pat : List Char) : List Char → Bool
  | [] => startsWithSeq pat []
  | c :: cs => startsWithSeq pat (c :: cs) || containsSeq pat cs

/-- Python `needle in hay` on strings. -/
def pyIn (needle hay : String) : Bool :=
  containsSeq needle.data hay.data

/-- ASCII lower-casing (Python `str.lower` on the ASCII fragment). -/
def pyLower (s : String) : String :=
  String.mk (s.data.map Char.toLower)

/-- Python `str.strip()` : drop leading and trailing whitespace. -/
def pyStripChars (cs : List Char) : List Char :=
  ((cs.dropWhile pyWS).reverse.dropWhile pyWS).reverse

/-- Python `str.strip()` on strings. -/
def pyStrip (s : String) : String :=
  String.mk (pyStripChars s.data)

/-- Maximal runs of characters satisfying `p` (accumulator is reversed). -/
def runsAux (p : Char → Bool) : List Char → List Char → List (List Char)
  | cur, [] => if cur = [] then [] else [cur.reverse]
  | cur, c :: cs =>
      if p c then runsAux p (c :: cur) cs
      else if cur = [] then runsAux p [] cs
      else cur.reverse :: runsAux p [] cs

/-- Maximal runs of characters satisfying `p`. -/
def runsOf (p : Char → Bool) (cs : List Char) : List (List Char) :=
  runsAux p [] cs

/-- Python `str.split()` with no separator: whitespace-delimited tokens,
empties discarded. -/
def pySplit (s : String) : List String :=
  (runsOf (fun c => !pyWS c) s.data).map String.mk

/-- Python `re.findall(r"\w+", s)` : maximal word-character runs. -/
def wordsOf (s : String) : List String :=
  (runsOf wordChar s.data).map String.mk

/-- Python `s.split(sep)` (single-character separator, empties kept). -/
def splitSepAux (sep : Char) : List Char → List Char → List (List Char)
  | cur, [] => [cur.reverse]
  | cur, c :: cs =>
      if c = sep then cur.reverse :: splitSepAux sep [] cs
      else splitSepAux sep (c :: cur) cs

/-- Python `s.replace(" ", "")` : remove every space character. -/
def removeSpaces (s : String) : String :=
  String.mk (s.data.filter (fun c => c ≠ ' '))

/-! ## Rounding (Python `round(x, 2)`, idealised to decimal half-even) -/

/-- Round-half-to-even to the nearest integer. -/
def roundHalfEven (q : ℚ) : ℤ :=
  let n := ⌊q⌋
  let r := q - (n : ℚ)
  if r < 1/2 then n
  else if 1/2 < r then n + 1
  else if n % 2 = 0 then n else n + 1

/-- `round(x, 2)` : round to two decimal places. -/
def round2 (q : ℚ) : ℚ :=
  (roundHalfEven (q * 100) : ℚ) / 100

/-! ## Data model -/

/-- One entry of `profile_data["experience"]`; only the `company` field is
read by the confidence calculator (`exp.get("company", "")`). -/
structure ExperienceEntry where
  company : String
deriving DecidableEq, Repr

/-- The identity query `{name, email, company}`. -/
structure InputData where
  name : String
  email : String
  company : String
deriving DecidableEq, Repr

/-- The extracted profile fields the orchestrator and calculator read
(`profile_data.get(...)`, absent keys defaulting to empty values). -/
structure ProfileData where
  fullName : String
  headline : String
  experience : List ExperienceEntry
  education : List String
  skills : List String
deriving DecidableEq, Repr

/-! ## ConfidenceCalculator (confidence_calculator.py)

`sim` is Python `difflib.SequenceMatcher(None, a, b).ratio()` (stdlib
collaborator, abstract); `deaccent` is the `unicodedata.normalize("NFKD",
·).encode("ASCII","ignore")` diacritic-stripping step (stdlib collaborator,
abstract).  Everything else follows the source line by line. -/

/-- `_normalize_text` : strip accents, lower-case, trim. -/
def normalizeText (deaccent : String → String) (s : String) : String :=
  pyStrip (pyLower (deaccent s))

/-- `_check_initials` : concatenated first letters of each token agree. -/
def checkInitials (a b : String) : Bool :=
  (pySplit a).filterMap (fun w => w.data.head?)
    = (pySplit b).filterMap (fun w => w.data.head?)

/-- `_compare_names`. -/
def compareNames (sim : String → String → ℚ) (deaccent : String → String)
    (inputName profileName : String) : ℚ :=
  if inputName = "" ∨ profileName = "" then 0
  else if normalizeText deaccent inputName = normalizeText deaccent profileName then 1
  else if (pySplit (normalizeText deaccent inputName)).all
      (fun t => (pySplit (normalizeText deaccent profileName)).contains t) then mkRat 9 10
  else if 2 ≤ (pySplit (normalizeText deaccent inputName)).length
      ∧ 2 ≤ (pySplit (normalizeText deaccent profileName)).length
      ∧ (pySplit (normalizeText deaccent inputName)).headD ""
          = (pySplit (normalizeText deaccent profileName)).headD ""
      ∧ (pySplit (normalizeText deaccent inputName)).getLastD ""
          = (pySplit (normalizeText deaccent profileName)).getLastD "" then mkRat 8 10
  else if mkRat 7 10
      < sim (normalizeText deaccent inputName) (normalizeText deaccent profileName) then
    sim (normalizeText deaccent inputName) (normalizeText deaccent profileName)
  else if checkInitials (normalizeText deaccent inputName)
      (normalizeText deaccent profileName) then mkRat 6 10
  else sim (normalizeText deaccent inputName) (normalizeText deaccent profileName)

/-- The scan over all experience entries in `_compare_company`
(an exact match short-circuits at nine tenths, otherwise a running maximum). -/
def scanExperiences (sim : String → String → ℚ) (deaccent : String → String)
    (ic : String) : List ExperienceEntry → ℚ → ℚ
  | [], acc => acc
  | e :: es, acc =>
      if ic = normalizeText deaccent e.company then mkRat 9 10
      else
        scanExperiences sim deaccent ic es
          (if pyIn ic (normalizeText deaccent e.company)
              || pyIn (normalizeText deaccent e.company) ic then
            max (max acc (sim ic (normalizeText deaccent e.company))) (mkRat 7 10)
          else max acc (sim ic (normalizeText deaccent e.company)))

/-- `_compare_company` (`_get_current_experience` returns the head of the
experience list). -/
def compareCompany (sim : String → String → ℚ) (deaccent : String → String)
    (inputCompany : String) (experiences : List ExperienceEntry) : ℚ :=
  if inputCompany = "" ∨ experiences = [] then 0
  else
    match experiences with
    | [] => 0
    | cur :: rest =>
        if normalizeText deaccent inputCompany = normalizeText deaccent cur.company then 1
        else if mkRat 7 10 < sim (normalizeText deaccent inputCompany)
            (normalizeText deaccent cur.company) then
          sim (normalizeText deaccent inputCompany) (normalizeText deaccent cur.company)
        else if pyIn (normalizeText deaccent inputCompany) (normalizeText deaccent cur.company)
            || pyIn (normalizeText deaccent cur.company) (normalizeText deaccent inputCompany) then
          mkRat 8 10
        else scanExperiences sim deaccent (normalizeText deaccent inputCompany) (cur :: rest) 0

/-- `re.match(r"^([^@]+)@", email)` : the longest `@`-free nonempty head
followed by an `@`. -/
def pyLocalPart (email : String) : Option String :=
  let u := email.data.takeWhile (fun c => c ≠ '@')
  if u ≠ [] ∧ u.length < email.data.length then some (String.mk u) else none

/-- The four local-part patterns built from the first and last name token. -/
def emailPatterns (firstName lastName : String) : List String :=
  [firstName ++ "." ++ lastName,
   firstName ++ "_" ++ lastName,
   firstName ++ lastName,
   String.mk (firstName.data.take 1) ++ lastName]

/-- The pattern loop of `_compare_email`: per pattern, an exact match
returns nine tenths, then a similarity above eight tenths returns seven
tenths, else the next pattern is tried. -/
def patternLoop (sim : String → String → ℚ) (username : String) :
    List String → Option ℚ
  | [] => none
  | p :: ps =>
      if username = p then some (mkRat 9 10)
      else if mkRat 8 10 < sim username p then some (mkRat 7 10)
      else patternLoop sim username ps

/-- `email.split("@")[-1].lower()`. -/
def pyDomain (email : String) : String :=
  pyLower (String.mk ((splitSepAux '@' [] email.data).getLastD []))

/-- The final, company-domain tier of `_compare_email`: six tenths when a
word (longer than three characters) of the current experience company
occurs in the email domain, two tenths otherwise. -/
def emailDomainScore (deaccent : String → String) (inputEmail : String)
    (experiences : List ExperienceEntry) : ℚ :=
  match experiences with
  | [] => mkRat 2 10
  | cur :: _ =>
      if (wordsOf (pyLower (normalizeText deaccent cur.company))).any
          (fun w => 3 < w.length && pyIn w (pyDomain inputEmail)) then mkRat 6 10
      else mkRat 2 10

/-- `_compare_email`. -/
def compareEmail (sim : String → String → ℚ) (deaccent : String → String)
    (inputEmail : String) (fullNameRaw : String)
    (experiences : List ExperienceEntry) : ℚ :=
  if inputEmail = "" then 0
  else
    match pyLocalPart inputEmail with
    | none => 0
    | some lp =>
        if pyIn (pyLower lp)
            (pyLower (removeSpaces (normalizeText deaccent fullNameRaw))) then mkRat 8 10
        else if 2 ≤ (pySplit (pyLower (normalizeText deaccent fullNameRaw))).length then
          match patternLoop sim (pyLower lp)
              (emailPatterns
                ((pySplit (pyLower (normalizeText deaccent fullNameRaw))).headD "")
                ((pySplit (pyLower (normalizeText deaccent fullNameRaw))).getLastD "")) with
          | some v => v
          | none => emailDomainScore deaccent inputEmail experiences
        else emailDomainScore deaccent inputEmail experiences

/-- `calculate_confidence` : weighted sub-scores, scaled to a percentage and
rounded to two decimals. -/
def calculateConfidence (sim : String → String → ℚ)
    (deaccent : String → String)
    (input : InputData) (profile : ProfileData) : ℚ :=
  round2 (if (0 : ℚ) < 40 + 30 + 30 then
      (compareNames sim deaccent input.name profile.fullName * 40
        + compareCompany sim deaccent input.company profile.experience * 30
        + compareEmail sim deaccent input.email profile.fullName profile.experience * 30)
      / (40 + 30 + 30) * 100
    else 0)

/-! ## BlockDetector (block_detection.py)

`research` models Python `re.search(pattern, text, re.IGNORECASE)` on the
bilingual pattern data (stdlib regex engine, abstract); `selectHit` and
`selectTexts` model BeautifulSoup `soup.select` hits and element texts
(external library, abstract); `waitSearch` models `re.search` on the two
wait-duration patterns together with its two capture groups.  The pattern
data, the flag structure, the result assembly and the action mapping follow
the source. -/

/-- The closed set of block kinds (the keys of `PATTERNS`). -/
inductive BlockKind where
  | rateLimit
  | securityCheck
  | loginRequired
  | accountRestricted
  | notFound
  | privateProfile
  | ipBlock
deriving DecidableEq, Repr

/-- The kinds in the insertion order of the `PATTERNS` dictionary. -/
def allBlockKinds : List BlockKind :=
  [.rateLimit, .securityCheck, .loginRequired, .accountRestricted,
   .notFound, .privateProfile, .ipBlock]

/-- `BlockDetector.PATTERNS` : bilingual regex pattern strings per kind. -/
def PATTERNS : BlockKind → List String
  | .rateLimit =>
      ["you\x27ve\\s+reached\\s+the\\s+(?:weekly|monthly)?\\s*(?:limit|maximum)",
       "você\\s+atingiu\\s+o\\s+(?:limite|máximo)\\s+(?:semanal|mensal)?",
       "you\x27ve\\s+viewed\\s+the\\s+maximum\\s+number\\s+of\\s+profiles",
       "try\\s+again\\s+later",
       "tente\\s+novamente\\s+mais\\s+tarde",
       "come\\s+back\\s+later\\s+to\\s+view\\s+more\\s+profiles"]
  | .securityCheck =>
      ["security\\s+verification",
       "verificação\\s+de\\s+segurança",
       "prove\\s+you\x27re\\s+a\\s+person",
       "prove\\s+que\\s+você\\s+é\\s+humano",
       "captcha",
       "are\\s+you\\s+a\\s+robot",
       "você\\s+é\\s+um\\s+robô",
       "unusual\\s+activity",
       "atividade\\s+incomum"]
  | .loginRequired =>
      ["please\\s+log\\s+in\\s+to\\s+continue",
       "faça\\s+login\\s+para\\s+continuar",
       "join\\s+now\\s+to\\s+view",
       "cadastre-se\\s+para\\s+ver",
       "sign\\s+in\\s+to\\s+view",
       "entrar\\s+para\\s+ver"]
  | .accountRestricted =>
      ["your\\s+account\\s+has\\s+been\\s+restricted",
       "sua\\s+conta\\s+foi\\s+restrita",
       "account\\s+temporarily\\s+restricted",
       "conta\\s+temporariamente\\s+restrita",
       "suspicious\\s+activity",
       "atividade\\s+suspeita",
       "we\x27ve\\s+noticed\\s+some\\s+unusual\\s+activity",
       "notamos\\s+alguma\\s+atividade\\s+incomum"]
  | .notFound =>
      ["page\\s+not\\s+found",
       "página\\s+não\\s+encontrada",
       "this\\s+page\\s+doesn\x27t\\s+exist",
       "esta\\s+página\\s+não\\s+existe",
       "hmm,\\s+we\\s+can\x27t\\s+reach\\s+this\\s+page",
       "hmm,\\s+não\\s+conseguimos\\s+acessar\\s+esta\\s+página"]
  | .privateProfile =>
      ["this\\s+profile\\s+is\\s+not\\s+available",
       "este\\s+perfil\\s+não\\s+está\\s+disponível",
       "out\\s+of\\s+your\\s+network",
       "fora\\s+da\\s+sua\\s+rede",
       "to\\s+see\\s+this\\s+profile,\\s+upgrade\\s+to\\s+premium",
       "para\\s+ver\\s+este\\s+perfil,\\s+atualize\\s+para\\s+o\\s+premium"]
  | .ipBlock =>
      ["we\x27ve\\s+detected\\s+unusual\\s+activity\\s+from\\s+your\\s+network",
       "detectamos\\s+atividade\\s+incomum\\s+da\\s+sua\\s+rede",
       "your\\s+IP\\s+address\\s+has\\s+been\\s+temporarily\\s+blocked",
       "seu\\s+endereço\\s+IP\\s+foi\\s+temporariamente\\s+bloqueado",
       "too\\s+many\\s+requests",
       "muitas\\s+solicitações"]

/-- `BlockDetector.HTML_INDICATORS` : CSS selectors per kind. -/
def HTML_INDICATORS : BlockKind → List String
  | .rateLimit =>
      [".limit-reached", ".search-limit", ".limit-hit", "[data-test-limit-reached]"]
  | .securityCheck =>
      [".challenge", ".captcha-container", "#captcha", ".security-verification",
       "[data-test-security-check]"]
  | .loginRequired =>
      [".login-form", ".join-form", ".sign-in-card", "[data-test-login-required]"]
  | .accountRestricted =>
      [".restricted-account", ".account-suspended", "[data-test-account-restricted]"]
  | .notFound =>
      [".not-found", ".error-404", "[data-test-404]", ".page-not-found"]
  | .privateProfile =>
      [".private-profile", ".out-of-network", "[data-test-private-profile]"]
  | .ipBlock =>
      [".ip-restricted", ".too-many-requests", "[data-test-ip-block]"]

/-- `BlockDetector.URL_INDICATORS` : URL regex patterns per kind (kinds
without an entry get the empty list). -/
def URL_INDICATORS : BlockKind → List String
  | .securityCheck => ["checkpoint/challenge", "security/check", "captcha"]
  | .loginRequired => ["linkedin.com/login", "linkedin.com/checkpoint"]
  | .accountRestricted => ["linkedin.com/checkpoint/restricted", "linkedin.com/suspended"]
  | .notFound => ["linkedin.com/404", "linkedin.com/pub/error"]
  | _ => []

/-- The error-message container selectors of `_get_block_details`. -/
def errorSelectors : List String :=
  [".error-message", ".alert-error", ".alert-warning", ".notification-text",
   ".message-body"]

/-- The two wait-duration patterns of `_get_block_details`. -/
def waitTimePatterns : List String :=
  ["try\\s+again\\s+in\\s+(\\d+)\\s+(minutes|hours|days)",
   "tente\\s+novamente\\s+em\\s+(\\d+)\\s+(minutos|horas|dias)"]

/-- The external matching engines consumed by the detector. -/
structure Matchers where
  research : String → String → Bool
  selectHit : String → String → Bool
  selectTexts : String → String → List String
  waitSearch : String → String → Option (Int × String)

/-- `_check_text_patterns` for one kind: some pattern matches the lowered
page text. -/
def textFlag (m : Matchers) (html : String) (k : BlockKind) : Bool :=
  (PATTERNS k).any (fun p => m.research p (pyLower html))

/-- `_check_html_elements` for one kind: some selector hits. -/
def htmlFlag (m : Matchers) (html : String) (k : BlockKind) : Bool :=
  (HTML_INDICATORS k).any (fun sel => m.selectHit sel html)

/-- `_check_url_patterns` for one kind: some URL pattern matches the
lowered URL. -/
def urlFlag (m : Matchers) (url : String) (k : BlockKind) : Bool :=
  (URL_INDICATORS k).any (fun p => m.research p (pyLower url))

/-- `_check_redirects` : login / checkpoint redirect heuristics on the raw
URL. -/
def redirectFlag (url : String) : BlockKind → Bool
  | .loginRequired => pyIn "linkedin.com/login" url
  | .securityCheck => pyIn "linkedin.com/checkpoint" url
  | _ => false

/-- The combined per-kind flag after all four signal sources. -/
def blockFlag (m : Matchers) (html url : String) (k : BlockKind) : Bool :=
  textFlag m html k || htmlFlag m html k || urlFlag m url k || redirectFlag url k

/-- The `details` sub-record of a detection result (`error_messages` absent
is the empty list, `wait_time` is optional). -/
structure BlockDetails where
  errorMessages : List String
  waitTime : Option (Int × String)
deriving DecidableEq, Repr

/-- `_get_block_details` : collect nonempty stripped error-message texts;
under a rate-limit flag, run both wait patterns over the messages, a later
pattern overwriting an earlier hit (the inner-loop `break` does not leave
the outer pattern loop). -/
def getBlockDetails (m : Matchers) (html : String) (rateLimitFlag : Bool) :
    BlockDetails :=
  let msgs := ((errorSelectors.flatMap (fun sel => m.selectTexts sel html)).map
      pyStrip).filter (fun t => t ≠ "")
  let wt := if rateLimitFlag then
      waitTimePatterns.foldl
        (fun acc p =>
          match msgs.findSome? (fun t => m.waitSearch p t) with
          | some w => some w
          | none => acc) none
    else none
  ⟨msgs, wt⟩

/-- `detect_blocks`'s result record. -/
structure DetectionResult where
  isBlocked : Bool
  blockTypes : List BlockKind
  details : BlockDetails
deriving DecidableEq, Repr

/-- `BlockDetector.detect_blocks`. -/
def detectBlocks (m : Matchers) (html url : String) : DetectionResult :=
  let flag := fun k => blockFlag m html url k
  { isBlocked := allBlockKinds.any flag
    blockTypes := allBlockKinds.filter flag
    details := getBlockDetails m html (flag .rateLimit) }

/-- The record returned by `get_recommended_action` (`reason`/`message`
are absent on the `continue` branch). -/
structure RecommendedAction where
  action : String
  reason : Option String
  message : Option String
  waitTime : Int
deriving DecidableEq, Repr

/-- The wait-time conversion of the `rate_limit` branch: 3600 by default,
minutes, hours and days converted when the unit string contains the
English unit word. -/
def rateLimitWait (wt : Option (Int × String)) : Int :=
  match wt with
  | none => 3600
  | some (v, u) =>
      if pyIn "minute" u then v * 60
      else if pyIn "hour" u then v * 3600
      else if pyIn "day" u then v * 86400
      else 3600

/-- `BlockDetector.get_recommended_action`. -/
def getRecommendedAction (r : DetectionResult) : RecommendedAction :=
  if r.isBlocked = false then ⟨"continue", none, none, 0⟩
  else if BlockKind.accountRestricted ∈ r.blockTypes then
    ⟨"stop", some "account_restricted",
     some "Conta restrita. Verifique manualmente sua conta do LinkedIn.", 86400⟩
  else if BlockKind.ipBlock ∈ r.blockTypes then
    ⟨"change_proxy", some "ip_block",
     some "IP bloqueado. Troque de proxy antes de continuar.", 3600⟩
  else if BlockKind.securityCheck ∈ r.blockTypes then
    ⟨"manual_intervention", some "security_check",
     some "Verificação de segurança detectada. Intervenção manual necessária.", 1800⟩
  else if BlockKind.rateLimit ∈ r.blockTypes then
    ⟨"wait", some "rate_limit",
     some "Limite de taxa atingido. Aguarde antes de continuar.",
     rateLimitWait r.details.waitTime⟩
  else if BlockKind.loginRequired ∈ r.blockTypes then
    ⟨"login", some "login_required",
     some "Login necessário. Tente fazer login novamente.", 0⟩
  else if BlockKind.notFound ∈ r.blockTypes then
    ⟨"skip", some "not_found",
     some "Página não encontrada. Pule este perfil.", 0⟩
  else if BlockKind.privateProfile ∈ r.blockTypes then
    ⟨"skip", some "private_profile",
     some "Perfil privado ou fora da rede. Pule este perfil.", 0⟩
  else
    ⟨"wait", some "unknown_block",
     some "Bloqueio desconhecido detectado. Aguarde antes de continuar.", 1800⟩

/-! ## RetryExecutor (error_handling.py, `retry_async`)

`action n` is the outcome of the n-th invocation of the wrapped coroutine
(n starts at 0); `retryable e` is membership of the failure in the
`exceptions` tuple.  Sleeps and jitter are I/O and do not affect the
outcome or the invocation count. -/

/-- The loop body of `retry_async`: at each attempt the action is invoked;
success returns, a retryable failure continues while attempts remain and
re-raises on the last attempt, a non-retryable failure propagates at once.
The second component counts invocations. -/
def retryGo (action : ℕ → Except ε α) (retryable : ε → Bool)
    (attempt : ℕ) : ℕ → Except ε α × ℕ
  | 0 =>
      (match action attempt with
       | .ok v => (.ok v, attempt + 1)
       | .error e => (.error e, attempt + 1))
  | n + 1 =>
      (match action attempt with
       | .ok v => (.ok v, attempt + 1)
       | .error e =>
           if retryable e then retryGo action retryable (attempt + 1) n
           else (.error e, attempt + 1))

/-- `retry_async(func, max_retries, ...)` : run the loop over
`range(max_retries + 1)` starting at attempt 0. -/
def retryRun (action : ℕ → Except ε α) (retryable : ε → Bool)
    (maxRetries : ℕ) : Except ε α × ℕ :=
  retryGo action retryable 0 maxRetries

/-! ## Orchestrator (linkedin_profile_hunter.py, `hunt_profile`)

The three remote stages are attempt-indexed outcome functions, each
wrapped in `retryRun` with the default catch-all `exceptions=(Exception,)`
tuple; `fmt` is Python float formatting for the `f"{confidence}%"`
interpolation; rate-limiter sleeps are I/O and outcome-irrelevant. -/

/-- The record returned by `find_profile`. -/
structure SearchResult where
  url : String
  initialConfidence : ℚ
deriving DecidableEq, Repr

/-- The final hunt report (field names transliterate the Portuguese result
keys `Nome, E-mail, Empresa, Confiabilidade, LinkedIn, Cargo Atual,
Experiência Anterior, Formação, Habilidades principais, Análise do
Perfil`). -/
structure HuntResult where
  nome : String
  email : String
  empresa : String
  confiabilidade : String
  linkedin : String
  cargoAtual : String
  experienciaAnterior : List ExperienceEntry
  formacao : List String
  habilidades : List String
  analisePerfil : String
deriving DecidableEq, Repr

/-- The fully-populated record returned when the search yields an empty
URL. -/
def notFoundResult (name email company : String) : HuntResult :=
  { nome := name
    email := email
    empresa := company
    confiabilidade := "0%"
    linkedin := "Perfil não encontrado"
    cargoAtual := "N/A"
    experienciaAnterior := []
    formacao := []
    habilidades := []
    analisePerfil :=
      "Não foi possível encontrar um perfil do LinkedIn correspondente aos dados fornecidos." }

/-- `LinkedInProfileHunter.hunt_profile`. -/
def huntProfile (sim : String → String → ℚ) (deaccent : String → String)
    (fmt : ℚ → String)
    (find : ℕ → Except ε SearchResult)
    (scrape : ℕ → Except ε ProfileData)
    (analyze : ℕ → Except ε String)
    (maxRetries : ℕ)
    (name email company : String) : Except ε HuntResult :=
  match (retryRun find (fun _ => true) maxRetries).1 with
  | .error e => .error e
  | .ok pr =>
      if pr.url = "" then .ok (notFoundResult name email company)
      else
        match (retryRun scrape (fun _ => true) maxRetries).1 with
        | .error e => .error e
        | .ok pd =>
            let conf := calculateConfidence sim deaccent ⟨name, email, company⟩ pd
            match (retryRun analyze (fun _ => true) maxRetries).1 with
            | .error e => .error e
            | .ok analysis =>
                .ok { nome := name
                      email := email
                      empresa := company
                      confiabilidade := fmt conf ++ "%"
                      linkedin := pr.url
                      cargoAtual := pd.headline
                      experienciaAnterior := pd.experience
                      formacao := pd.education
                      habilidades := pd.skills
                      analisePerfil := analysis }

/-! ## ProfileFinder URL extraction (profile_finder.py)

`re.findall` with the one profile-URL pattern
`https?://(?:www\.)?linkedin\.com/in/[\w\-]+/?[^"'\s]*` is embedded
concretely: the pattern has no backtracking-relevant structure (every
sub-pattern after a greedy repetition can match the empty string, and each
optional literal is followed by a required literal that cannot begin the
alternative), so maximal-munch scanning is exact. -/

/-- `[\w\-]` : handle characters in the profile-URL pattern. -/
def handleChar (c : Char) : Bool :=
  wordChar c || c = '-'

/-- `[^"'\s]` : the trailing character class of the profile-URL pattern. -/
def tailChar (c : Char) : Bool :=
  !(c = '"' || c = '\x27' || pyWS c)

/-- Match a literal at the head of the list, returning the remainder. -/
def dropLit : List Char → List Char → Option (List Char)
  | [], cs => some cs
  | _ :: _, [] => none
  | l :: ls, c :: cs => if c = l then dropLit ls cs else none

/-- Optionally consume one specific character. -/
def optChar (ch : Char) (cs : List Char) : List Char × List Char :=
  match cs with
  | [] => ([], [])
  | c :: rest => if c = ch then ([c], rest) else ([], c :: rest)

/-- Match the profile-URL regex at the head of the list; on success return
the matched characters and the remainder. -/
def matchProfileAt (cs : List Char) : Option (List Char × List Char) :=
  match dropLit "http".data cs with
  | none => none
  | some r1 =>
      let s2 := optChar 's' r1
      match dropLit "://".data s2.2 with
      | none => none
      | some r3 =>
          let w4 : List Char × List Char :=
            match dropLit "www.".data r3 with
            | some rest => ("www.".data, rest)
            | none => ([], r3)
          match dropLit "linkedin.com/in/".data w4.2 with
          | none => none
          | some r5 =>
              let handle := r5.takeWhile handleChar
              let r6 := r5.dropWhile handleChar
              if handle = [] then none
              else
                let s7 := optChar '/' r6
                let tl := s7.2.takeWhile tailChar
                let r8 := s7.2.dropWhile tailChar
                some ("http".data ++ s2.1 ++ "://".data ++ w4.1
                      ++ "linkedin.com/in/".data ++ handle ++ s7.1 ++ tl, r8)

/-- Fuelled left-to-right non-overlapping scan (`re.findall`); with fuel at
least the length of the list the scan is complete, since every step
consumes at least one character. -/
def findallGo : ℕ → List Char → List (List Char)
  | 0, _ => []
  | _, [] => []
  | fuel + 1, c :: cs =>
      match matchProfileAt (c :: cs) with
      | some (m, rest) => m :: findallGo fuel rest
      | none => findallGo fuel cs

/-- All matches of the profile-URL pattern, left to right. -/
def findallProfile (cs : List Char) : List (List Char) :=
  findallGo cs.length cs

/-- `dict.fromkeys` de-duplication: keep the first occurrence of each
element. -/
def dedupAux (seen : List (List Char)) : List (List Char) → List (List Char)
  | [] => []
  | x :: xs =>
      if x ∈ seen then dedupAux seen xs
      else x :: dedupAux (x :: seen) xs

/-- De-duplicate preserving first-seen order. -/
def dedupKeepFirst (l : List (List Char)) : List (List Char) :=
  dedupAux [] l

/-- `ProfileFinder._extract_linkedin_profile_urls`. -/
def extractLinkedInProfileUrls (html : String) : List String :=
  (dedupKeepFirst (findallProfile html.data)).map String.mk

/-! ## Concrete instantiations of the abstract collaborators

Used by counterexamples and witnesses.  `simZero` and `simHalf` are
admissible similarity oracles (any function into `[0,1]` is); the
counterexample matcher mirrors what the real regex engine and
BeautifulSoup return on the concrete page below. -/

/-- A similarity oracle that always answers 0. -/
def simZero : String → String → ℚ := fun _ _ => 0

/-- A similarity oracle that always answers one half. -/
def simHalf : String → String → ℚ := fun _ _ => mkRat 1 2

/-- An action that fails twice and then succeeds with 42. -/
def actTwoFail : ℕ → Except ℕ ℕ := fun n => if n < 2 then .error 0 else .ok 42

/-- A page whose text matches the `tente novamente mais tarde` rate-limit
pattern. -/
def cexHtml : String := "Tente novamente mais tarde"

/-- The error-message text shown on that page. -/
def cexMsg : String := "Tente novamente em 2 minutos"

/-- A profile URL that triggers no URL or redirect indicator. -/
def cexUrl : String := "https://www.linkedin.com/in/someone"

/-- What the regex engine and BeautifulSoup return on `cexHtml`: the one
Portuguese rate-limit pattern matches the lowered text, the
`.error-message` container holds `cexMsg`, and the Portuguese
wait-duration pattern captures `(2, "minutos")` from it. -/
def cexMatchers : Matchers where
  research := fun p t =>
    p = "tente\\s+novamente\\s+mais\\s+tarde" && pyIn "tente novamente mais tarde" t
  selectHit := fun _ _ => false
  selectTexts := fun sel h =>
    if sel = ".error-message" && h = cexHtml then [cexMsg] else []
  waitSearch := fun p t =>
    if p = "tente\\s+novamente\\s+em\\s+(\\d+)\\s+(minutos|horas|dias)" && t = cexMsg
    then some (2, "minutos") else none

/-- A matcher with every signal on (all patterns match, all selectors hit). -/
def allOnMatchers : Matchers :=
  ⟨fun _ _ => true, fun _ _ => true, fun _ _ => [], fun _ _ => none⟩

/-- A query whose name and company match the profile below exactly and
whose email local-part is the `first.last` pattern. -/
def cexInput : InputData := ⟨"john smith", "john.smith@acme.com", "acme"⟩

/-- The matching profile for `cexInput`. -/
def cexProfile : ProfileData := ⟨"john smith", "", [⟨"acme"⟩], [], []⟩

/-- A find stage that immediately returns an empty candidate URL. -/
def findEmpty : ℕ → Except ℕ SearchResult := fun _ => .ok ⟨"", 0⟩

/-- A scrape stage that always fails. -/
def scrapeFail : ℕ → Except ℕ ProfileData := fun _ => .error 0

/-- An analyze stage that always fails. -/
def analyzeFail : ℕ → Except ℕ String := fun _ => .error 0

/-- A formatter for the confidence percentage string. -/
def fmtQ : ℚ → String := fun q => toString q.num ++ "/" ++ toString q.den

/-- Search-result HTML with three distinct profile links (one duplicated)
and one company link. -/
def searchHtml : String :=
  "<a href=\"https://www.linkedin.com/in/profile1\">a</a> <a href=\"https://linkedin.com/in/profile2\">b</a> <a href=\"https://www.linkedin.com/company/acme\">c</a> <a href=\"https://www.linkedin.com/in/profile1\">d</a> <a href=\"http://www.linkedin.com/in/profile3/\">e</a>"

/-! ## Helper lemmas -/

/-- Express a `mkRat` literal as a division, for `norm_num`. -/
theorem mkRat_eq_div2 (n : ℤ) (d : ℕ) : mkRat n d = (n : ℚ) / (d : ℚ) := by
  rw [Rat.mkRat_eq_divInt, Rat.divInt_eq_div]
  norm_num

/-- Half-even rounding of a nonnegative number is nonnegative. -/
theorem roundHalfEven_nonneg {q : ℚ} (h : 0 ≤ q) : 0 ≤ roundHalfEven q := by
  unfold roundHalfEven
  have hf : (0 : ℤ) ≤ ⌊q⌋ := Int.floor_nonneg.mpr h
  dsimp only
  split_ifs <;> omega

/-- Half-even rounding never exceeds an integer upper bound. -/
theorem roundHalfEven_le {q : ℚ} {N : ℤ} (h : q ≤ (N : ℚ)) :
    roundHalfEven q ≤ N := by
  unfold roundHalfEven
  have hf : ⌊q⌋ ≤ N := by
    have hff : ⌊q⌋ ≤ ⌊(N : ℚ)⌋ := Int.floor_le_floor h
    rwa [Int.floor_intCast] at hff
  have hfl : (⌊q⌋ : ℚ) ≤ q := Int.floor_le q
  dsimp only
  split_ifs with h1 h2 h3
  · exact hf
  · -- q - ⌊q⌋ > 1/2, so ⌊q⌋ < N
    have : (⌊q⌋ : ℚ) + 1/2 < q := by linarith
    have hlt : (⌊q⌋ : ℚ) < (N : ℚ) := by linarith
    have : ⌊q⌋ < N := by exact_mod_cast hlt
    omega
  · exact hf
  · -- tie at exactly 1/2, so ⌊q⌋ < N
    have : (⌊q⌋ : ℚ) + 1/2 ≤ q := by linarith
    have hlt : (⌊q⌋ : ℚ) < (N : ℚ) := by linarith
    have : ⌊q⌋ < N := by exact_mod_cast hlt
    omega

/-- Rounding an integer changes nothing. -/
theorem roundHalfEven_intCast (n : ℤ) : roundHalfEven (n : ℚ) = n := by
  unfold roundHalfEven
  rw [Int.floor_intCast]
  have hs : (n : ℚ) - (n : ℚ) = 0 := sub_self _
  dsimp only
  rw [hs]
  norm_num

/-- `round2` keeps values inside `[0, 100]`. -/
theorem round2_bounds {q : ℚ} (h0 : 0 ≤ q) (h1 : q ≤ 100) :
    0 ≤ round2 q ∧ round2 q ≤ 100 := by
  unfold round2
  have hlo : (0 : ℤ) ≤ roundHalfEven (q * 100) :=
    roundHalfEven_nonneg (by positivity)
  have hhi : roundHalfEven (q * 100) ≤ (10000 : ℤ) :=
    roundHalfEven_le (by push_cast; linarith)
  constructor
  · positivity
  · rw [div_le_iff₀ (by norm_num : (0:ℚ) < 100)]
    calc (roundHalfEven (q * 100) : ℚ) ≤ ((10000 : ℤ) : ℚ) := by exact_mod_cast hhi
    _ = 100 * 100 := by norm_num

/-- `round2` fixes integers. -/
theorem round2_intCast (n : ℤ) : round2 ((n : ℚ)) = (n : ℚ) := by
  unfold round2
  have : (n : ℚ) * 100 = ((n * 100 : ℤ) : ℚ) := by push_cast; ring
  rw [this, roundHalfEven_intCast]
  push_cast
  field_simp

/-- `round2` fixes integer multiples of one hundredth. -/
theorem round2_intCast_div100 (n : ℤ) :
    round2 ((n : ℚ) / 100) = (n : ℚ) / 100 := by
  unfold round2
  have : (n : ℚ) / 100 * 100 = ((n : ℤ) : ℚ) := by field_simp
  rw [this, roundHalfEven_intCast]

/-- The pattern loop only ever produces nine tenths or seven tenths. -/
theorem patternLoop_mem {sim : String → String → ℚ} {u : String} :
    ∀ {ps : List String} {v : ℚ}, patternLoop sim u ps = some v →
      v = mkRat 9 10 ∨ v = mkRat 7 10 := by
  intro ps
  induction ps with
  | nil => intro v h; simp [patternLoop] at h
  | cons p ps ih =>
      intro v h
      unfold patternLoop at h
      split_ifs at h with h1 h2
      · exact Or.inl (Option.some.inj h).symm
      · exact Or.inr (Option.some.inj h).symm
      · exact ih h

/-- The experience scan stays inside `[0, 1]` when the accumulator does. -/
theorem scanExperiences_mem {sim : String → String → ℚ}
    {deaccent : String → String} {ic : String}
    (hsim : ∀ a b, 0 ≤ sim a b ∧ sim a b ≤ 1) :
    ∀ (es : List ExperienceEntry) (acc : ℚ), 0 ≤ acc → acc ≤ 1 →
      0 ≤ scanExperiences sim deaccent ic es acc
      ∧ scanExperiences sim deaccent ic es acc ≤ 1 := by
  intro es
  induction es with
  | nil => intro acc h0 h1; exact ⟨h0, h1⟩
  | cons e es ih =>
      intro acc h0 h1
      unfold scanExperiences
      split_ifs with h2 h3
      · constructor <;> norm_num [mkRat_eq_div2]
      · refine ih _ (le_trans h0 (le_trans (le_max_left _ _) (le_max_left _ _))) ?_
        refine max_le (max_le h1 (hsim _ _).2) ?_
        norm_num [mkRat_eq_div2]
      · exact ih _ (le_trans h0 (le_max_left _ _)) (max_le h1 (hsim _ _).2)

/-- `_compare_names` stays inside `[0, 1]`. -/
theorem compareNames_mem {sim : String → String → ℚ}
    {deaccent : String → String} (x y : String)
    (hsim : ∀ a b, 0 ≤ sim a b ∧ sim a b ≤ 1) :
    0 ≤ compareNames sim deaccent x y ∧ compareNames sim deaccent x y ≤ 1 := by
  unfold compareNames
  split_ifs <;>
    constructor <;>
      first
        | exact (hsim _ _).1
        | exact (hsim _ _).2
        | norm_num [mkRat_eq_div2]

/-- `_compare_company` stays inside `[0, 1]`. -/
theorem compareCompany_mem {sim : String → String → ℚ}
    {deaccent : String → String} (x : String) (es : List ExperienceEntry)
    (hsim : ∀ a b, 0 ≤ sim a b ∧ sim a b ≤ 1) :
    0 ≤ compareCompany sim deaccent x es ∧ compareCompany sim deaccent x es ≤ 1 := by
  have c01 : (0:ℚ) ≤ 1 := by norm_num
  have c8a : (0:ℚ) ≤ mkRat 8 10 := by rw [mkRat_eq_div2]; norm_num
  have c8b : mkRat 8 10 ≤ (1:ℚ) := by rw [mkRat_eq_div2]; norm_num
  cases es with
  | nil => unfold compareCompany; rw [if_pos (Or.inr rfl)]; exact ⟨le_rfl, c01⟩
  | cons cur es =>
      by_cases hx : x = ""
      · unfold compareCompany; rw [if_pos (Or.inl hx)]; exact ⟨le_rfl, c01⟩
      · unfold compareCompany
        rw [if_neg (by simp [hx])]
        dsimp only
        by_cases h1 : normalizeText deaccent x = normalizeText deaccent cur.company
        · rw [if_pos h1]; exact ⟨c01, le_rfl⟩
        · rw [if_neg h1]
          by_cases h2 : mkRat 7 10
              < sim (normalizeText deaccent x) (normalizeText deaccent cur.company)
          · rw [if_pos h2]; exact ⟨(hsim _ _).1, (hsim _ _).2⟩
          · rw [if_neg h2]
            by_cases h3 : (pyIn (normalizeText deaccent x) (normalizeText deaccent cur.company)
                || pyIn (normalizeText deaccent cur.company) (normalizeText deaccent x)) = true
            · rw [if_pos h3]; exact ⟨c8a, c8b⟩
            · rw [if_neg h3]
              exact @scanExperiences_mem sim deaccent (normalizeText deaccent x)
                hsim (cur :: es) 0 le_rfl c01

/-- `_compare_email` stays inside `[0, 1]`. -/
theorem compareEmail_mem {sim : String → String → ℚ}
    {deaccent : String → String} (email nm : String)
    (es : List ExperienceEntry) :
    0 ≤ compareEmail sim deaccent email nm es
    ∧ compareEmail sim deaccent email nm es ≤ 1 := by
  have hdom : ∀ (em : String) (exps : List ExperienceEntry),
      0 ≤ emailDomainScore deaccent em exps
      ∧ emailDomainScore deaccent em exps ≤ 1 := by
    intro em exps
    cases exps with
    | nil => unfold emailDomainScore; constructor <;> norm_num [mkRat_eq_div2]
    | cons cur rest =>
        unfold emailDomainScore
        dsimp only
        split_ifs <;> constructor <;> norm_num [mkRat_eq_div2]
  by_cases h0 : email = ""
  · unfold compareEmail; rw [if_pos h0]; constructor <;> norm_num
  · unfold compareEmail; rw [if_neg h0]
    rcases hlp : pyLocalPart email with _ | lp <;> dsimp only
    · constructor <;> norm_num
    · split_ifs with h1 h2
      · constructor <;> norm_num [mkRat_eq_div2]
      · cases hvp : patternLoop sim (pyLower lp)
            (emailPatterns ((pySplit (pyLower (normalizeText deaccent nm))).headD "")
              ((pySplit (pyLower (normalizeText deaccent nm))).getLastD "")) with
        | none => exact hdom email es
        | some v =>
            dsimp only
            rcases patternLoop_mem hvp with hv | hv <;> subst hv <;>
              constructor <;> norm_num [mkRat_eq_div2]
      · exact hdom email es

/-- C1 supporting theorem: the confidence is the percentage-scaled weighted
combination of the three sub-scores, each sub-score lies in `[0, 1]`, and
the result lies in `[0, 100]`. -/
theorem calc_confidence_spec (sim : String → String → ℚ)
    (deaccent : String → String) (input : InputData) (profile : ProfileData)
    (hsim : ∀ a b, 0 ≤ sim a b ∧ sim a b ≤ 1) :
    calculateConfidence sim deaccent input profile
      = round2 (40 * compareNames sim deaccent input.name profile.fullName
          + 30 * compareCompany sim deaccent input.company profile.experience
          + 30 * compareEmail sim deaccent input.email profile.fullName
              profile.experience)
    ∧ (0 ≤ compareNames sim deaccent input.name profile.fullName
       ∧ compareNames sim deaccent input.name profile.fullName ≤ 1)
    ∧ (0 ≤ compareCompany sim deaccent input.company profile.experience
       ∧ compareCompany sim deaccent input.company profile.experience ≤ 1)
    ∧ (0 ≤ compareEmail sim deaccent input.email profile.fullName profile.experience
       ∧ compareEmail sim deaccent input.email profile.fullName profile.experience ≤ 1)
    ∧ 0 ≤ calculateConfidence sim deaccent input profile
    ∧ calculateConfidence sim deaccent input profile ≤ 100 := by
  obtain ⟨hn0, hn1⟩ := @compareNames_mem sim deaccent
    input.name profile.fullName hsim
  obtain ⟨hc0, hc1⟩ := @compareCompany_mem sim deaccent
    input.company profile.experience hsim
  obtain ⟨he0, he1⟩ := @compareEmail_mem sim deaccent
    input.email profile.fullName profile.experience
  have heq : calculateConfidence sim deaccent input profile
      = round2 (40 * compareNames sim deaccent input.name profile.fullName
          + 30 * compareCompany sim deaccent input.company profile.experience
          + 30 * compareEmail sim deaccent input.email profile.fullName
              profile.experience) := by
    unfold calculateConfidence
    rw [if_pos (by norm_num : (0:ℚ) < 40 + 30 + 30)]
    congr 1
    field_simp
    ring
  have hb := @round2_bounds (40 * compareNames sim deaccent input.name profile.fullName
      + 30 * compareCompany sim deaccent input.company profile.experience
      + 30 * compareEmail sim deaccent input.email profile.fullName profile.experience)
    (by linarith) (by linarith)
  exact ⟨heq, ⟨hn0, hn1⟩, ⟨hc0, hc1⟩, ⟨he0, he1⟩,
    heq ▸ hb.1, heq ▸ hb.2⟩

/-- C1 counterexample: on a concrete exact-match query the calculator
returns 97, while the formula claimed by the specification,
`(40·nameScore + 30·companyScore + 30·emailScore) / 100` rounded to two
decimals, evaluates to 0.97 at the very same sub-scores. -/
theorem calc_confidence_claim_cex :
    calculateConfidence simZero id cexInput cexProfile = 97
  ∧ round2 ((40 * compareNames simZero id cexInput.name cexProfile.fullName
      + 30 * compareCompany simZero id cexInput.company cexProfile.experience
      + 30 * compareEmail simZero id cexInput.email cexProfile.fullName
          cexProfile.experience) / 100) = mkRat 97 100
  ∧ (97 : ℚ) ≠ mkRat 97 100 := by
  have hn : compareNames simZero id cexInput.name cexProfile.fullName = 1 := by
    decide
  have hc : compareCompany simZero id cexInput.company cexProfile.experience = 1 := by
    decide
  have he : compareEmail simZero id cexInput.email cexProfile.fullName
      cexProfile.experience = mkRat 9 10 := by decide
  refine ⟨?_, ?_, by decide⟩
  · unfold calculateConfidence
    rw [hn, hc, he, if_pos (by norm_num : (0:ℚ) < 40 + 30 + 30)]
    rw [show ((1:ℚ) * 40 + 1 * 30 + mkRat 9 10 * 30) / (40 + 30 + 30) * 100
        = ((97:ℤ) : ℚ) by rw [mkRat_eq_div2]; norm_num]
    rw [round2_intCast]
    norm_num
  · rw [hn, hc, he]
    rw [show (40 * (1:ℚ) + 30 * 1 + 30 * mkRat 9 10) = ((97:ℤ) : ℚ) by
      rw [mkRat_eq_div2]; norm_num]
    rw [round2_intCast_div100, mkRat_eq_div2]
    norm_num

/-- C1 witness: the amended statement instantiated at a concrete
admissible similarity oracle and a concrete query. -/
theorem calc_confidence_spec_wit :
    (∀ a b : String, 0 ≤ simHalf a b ∧ simHalf a b ≤ 1)
  ∧ 0 ≤ calculateConfidence simHalf id cexInput cexProfile
  ∧ calculateConfidence simHalf id cexInput cexProfile ≤ 100 := by
  have hs : ∀ a b : String, 0 ≤ simHalf a b ∧ simHalf a b ≤ 1 := by
    intro a b
    exact ⟨(by decide : (0:ℚ) ≤ mkRat 1 2), (by decide : mkRat 1 2 ≤ (1:ℚ))⟩
  have h := calc_confidence_spec simHalf id cexInput cexProfile hs
  exact ⟨hs, h.2.2.2.2.1, h.2.2.2.2.2⟩

/-- A detection result is flagged blocked exactly when some kind was
detected. -/
theorem detectBlocks_blocked_iff (m : Matchers) (html url : String) :
    (detectBlocks m html url).isBlocked = true
      ↔ (detectBlocks m html url).blockTypes ≠ [] := by
  simp only [detectBlocks]
  constructor
  · intro h hnil
    obtain ⟨k, hk, hpk⟩ := List.any_eq_true.mp h
    exact List.filter_eq_nil_iff.mp hnil k hk hpk
  · intro h
    obtain ⟨k, hk⟩ := List.exists_mem_of_ne_nil _ h
    obtain ⟨hka, hkp⟩ := List.mem_filter.mp hk
    exact List.any_eq_true.mpr ⟨k, hka, hkp⟩

/-- C2: whenever `detect_blocks` reports `account_restricted` — however
many milder kinds are present — the recommended action is the `stop`
action with a 24-hour wait, by the fixed priority order of
`get_recommended_action`. -/
theorem account_restricted_stop (m : Matchers) (html url : String)
    (h : BlockKind.accountRestricted ∈ (detectBlocks m html url).blockTypes) :
    getRecommendedAction (detectBlocks m html url)
      = ⟨"stop", some "account_restricted",
         some "Conta restrita. Verifique manualmente sua conta do LinkedIn.",
         86400⟩ := by
  have hb : (detectBlocks m html url).isBlocked = true :=
    (detectBlocks_blocked_iff m html url).mpr (List.ne_nil_of_mem h)
  unfold getRecommendedAction
  rw [if_neg (by simp [hb]), if_pos h]

/-- C2 witness: with every signal on, `account_restricted` and `rate_limit`
are both detected and the action is still `stop`. -/
theorem account_restricted_stop_wit :
    BlockKind.accountRestricted ∈ (detectBlocks allOnMatchers "x" "y").blockTypes
  ∧ BlockKind.rateLimit ∈ (detectBlocks allOnMatchers "x" "y").blockTypes
  ∧ getRecommendedAction (detectBlocks allOnMatchers "x" "y")
      = ⟨"stop", some "account_restricted",
         some "Conta restrita. Verifique manualmente sua conta do LinkedIn.",
         86400⟩ :=
  ⟨by decide, by decide, account_restricted_stop allOnMatchers "x" "y" (by decide)⟩

/-- C10: for every html and url the detection result is internally
consistent: `is_blocked` holds exactly when `block_types` is nonempty, and
every reported kind belongs to the closed seven-kind set. -/
theorem detect_blocks_invariant (m : Matchers) (html url : String) :
    ((detectBlocks m html url).isBlocked = true
      ↔ (detectBlocks m html url).blockTypes ≠ [])
  ∧ ∀ k, k ∈ (detectBlocks m html url).blockTypes → k ∈ allBlockKinds := by
  refine ⟨detectBlocks_blocked_iff m html url, ?_⟩
  intro k hk
  have hk2 : k ∈ allBlockKinds ∧ blockFlag m html url k = true :=
    List.mem_filter.mp (by simpa [detectBlocks] using hk)
  exact hk2.1

/-- C10 witness: the invariant instantiated at a concrete matcher, with
the block-type list evaluated. -/
theorem detect_blocks_invariant_wit :
    (((detectBlocks allOnMatchers "a" "b").isBlocked = true
      ↔ (detectBlocks allOnMatchers "a" "b").blockTypes ≠ [])
    ∧ ∀ k, k ∈ (detectBlocks allOnMatchers "a" "b").blockTypes → k ∈ allBlockKinds)
  ∧ (detectBlocks allOnMatchers "a" "b").blockTypes = allBlockKinds :=
  ⟨detect_blocks_invariant allOnMatchers "a" "b", by decide⟩

/-- C4 (amended): for a blocked result whose kinds include `rate_limit`
and no severer kind, the action is `wait`; a parsed duration is converted
(value×60 / ×3600 / ×86400) only when its unit string contains the English
word `minute` / `hour` / `day` — which covers the English units the
detector parses — while the Portuguese unit strings the detector also
parses (`minutos`, `horas`, `dias`) fall back to the 3600-second default,
as does an absent duration. -/
theorem rate_limit_wait_conversion (ts : List BlockKind) (bd : BlockDetails)
    (v : Int)
    (hrl : BlockKind.rateLimit ∈ ts)
    (har : BlockKind.accountRestricted ∉ ts)
    (hip : BlockKind.ipBlock ∉ ts)
    (hsc : BlockKind.securityCheck ∉ ts) :
    (getRecommendedAction ⟨true, ts, bd⟩).action = "wait"
  ∧ (bd.waitTime = none →
      (getRecommendedAction ⟨true, ts, bd⟩).waitTime = 3600)
  ∧ (bd.waitTime = some (v, "minutes") →
      (getRecommendedAction ⟨true, ts, bd⟩).waitTime = v * 60)
  ∧ (bd.waitTime = some (v, "hours") →
      (getRecommendedAction ⟨true, ts, bd⟩).waitTime = v * 3600)
  ∧ (bd.waitTime = some (v, "days") →
      (getRecommendedAction ⟨true, ts, bd⟩).waitTime = v * 86400)
  ∧ (bd.waitTime = some (v, "minutos") →
      (getRecommendedAction ⟨true, ts, bd⟩).waitTime = 3600)
  ∧ (bd.waitTime = some (v, "horas") →
      (getRecommendedAction ⟨true, ts, bd⟩).waitTime = 3600)
  ∧ (bd.waitTime = some (v, "dias") →
      (getRecommendedAction ⟨true, ts, bd⟩).waitTime = 3600) := by
  have hact : getRecommendedAction ⟨true, ts, bd⟩
      = ⟨"wait", some "rate_limit",
         some "Limite de taxa atingido. Aguarde antes de continuar.",
         rateLimitWait bd.waitTime⟩ := by
    unfold getRecommendedAction
    dsimp only
    rw [if_neg (by simp), if_neg har, if_neg hip, if_neg hsc, if_pos hrl]
  have hsome : ∀ (w : Int) (u : String), rateLimitWait (some (w, u))
      = if pyIn "minute" u = true then w * 60
        else if pyIn "hour" u = true then w * 3600
        else if pyIn "day" u = true then w * 86400
        else 3600 := fun _ _ => rfl
  refine ⟨by rw [hact], ?_, ?_, ?_, ?_, ?_, ?_, ?_⟩ <;>
    intro h <;> rw [hact] <;> dsimp only <;> rw [h]
  · rfl
  · rw [hsome, if_pos (show pyIn "minute" "minutes" = true by decide)]
  · rw [hsome, if_neg (show ¬pyIn "minute" "hours" = true by decide),
        if_pos (show pyIn "hour" "hours" = true by decide)]
  · rw [hsome, if_neg (show ¬pyIn "minute" "days" = true by decide),
        if_neg (show ¬pyIn "hour" "days" = true by decide),
        if_pos (show pyIn "day" "days" = true by decide)]
  · rw [hsome, if_neg (show ¬pyIn "minute" "minutos" = true by decide),
        if_neg (show ¬pyIn "hour" "minutos" = true by decide),
        if_neg (show ¬pyIn "day" "minutos" = true by decide)]
  · rw [hsome, if_neg (show ¬pyIn "minute" "horas" = true by decide),
        if_neg (show ¬pyIn "hour" "horas" = true by decide),
        if_neg (show ¬pyIn "day" "horas" = true by decide)]
  · rw [hsome, if_neg (show ¬pyIn "minute" "dias" = true by decide),
        if_neg (show ¬pyIn "hour" "dias" = true by decide),
        if_neg (show ¬pyIn "day" "dias" = true by decide)]

/-- C4 counterexample: a genuine detector output parses the localized
duration `(2, "minutos")` from the page's error message, yet the
recommended wait is the 3600-second default and not the claimed 2×60. -/
theorem wait_unit_localized_cex :
    (detectBlocks cexMatchers cexHtml cexUrl).blockTypes = [BlockKind.rateLimit]
  ∧ (detectBlocks cexMatchers cexHtml cexUrl).details.waitTime
      = some (2, "minutos")
  ∧ (getRecommendedAction (detectBlocks cexMatchers cexHtml cexUrl)).action
      = "wait"
  ∧ (getRecommendedAction (detectBlocks cexMatchers cexHtml cexUrl)).waitTime
      = 3600
  ∧ (3600 : Int) ≠ 2 * 60 :=
  ⟨by decide, by decide, by decide, by decide, by decide⟩

/-- C4 witness: an English two-minute duration is converted to 120
seconds. -/
theorem rate_limit_wait_conversion_wit :
    (getRecommendedAction
        ⟨true, [BlockKind.rateLimit], ⟨[], some (2, "minutes")⟩⟩).action = "wait"
  ∧ (getRecommendedAction
        ⟨true, [BlockKind.rateLimit], ⟨[], some (2, "minutes")⟩⟩).waitTime = 2 * 60 := by
  have h := rate_limit_wait_conversion [BlockKind.rateLimit]
    ⟨[], some (2, "minutes")⟩ 2 (by decide) (by decide) (by decide) (by decide)
  exact ⟨h.1, h.2.2.1 rfl⟩

/-- C6 (amended): for nonempty input and profile names that are identical
after normalization, the name sub-score is exactly 1.0 (the empty string
is caught by the falsy-guard and scores 0 instead). -/
theorem name_exact_match_one (sim : String → String → ℚ)
    (deaccent : String → String) (a b : String)
    (ha : a ≠ "") (hb : b ≠ "")
    (h : normalizeText deaccent a = normalizeText deaccent b) :
    compareNames sim deaccent a b = 1 := by
  unfold compareNames
  rw [if_neg (by simp [ha, hb]), if_pos h]

/-- C6 counterexample: the empty pair normalizes identically on both
sides, yet scores 0, not 1.0. -/
theorem name_exact_empty_cex :
    normalizeText id "" = normalizeText id ""
  ∧ compareNames simZero id "" "" = 0 :=
  ⟨rfl, by decide⟩

/-- C6 witness: names equal after trimming and lower-casing score 1.0. -/
theorem name_exact_match_one_wit :
    ("  John Smith  " : String) ≠ ""
  ∧ ("john smith" : String) ≠ ""
  ∧ normalizeText id "  John Smith  " = normalizeText id "john smith"
  ∧ compareNames simHalf id "  John Smith  " "john smith" = 1 :=
  ⟨by decide, by decide, by decide,
   name_exact_match_one simHalf id _ _ (by decide) (by decide) (by decide)⟩

/-- C5 (amended): the email sub-score is at least 0.2 whenever the email
has a local part (a nonempty prefix before an `@`), for every similarity
oracle; it is exactly 0 for an empty email, and more generally whenever
the local-part regex fails (no `@`, or nothing before it). -/
theorem email_score_floor (sim : String → String → ℚ)
    (deaccent : String → String) (email nm : String)
    (exps : List ExperienceEntry) :
    ((pyLocalPart email).isSome →
      mkRat 2 10 ≤ compareEmail sim deaccent email nm exps)
  ∧ (pyLocalPart email = none → compareEmail sim deaccent email nm exps = 0)
  ∧ (email = "" → compareEmail sim deaccent email nm exps = 0) := by
  have hdom : ∀ (em : String) (exps2 : List ExperienceEntry),
      mkRat 2 10 ≤ emailDomainScore deaccent em exps2 := by
    intro em exps2
    cases exps2 with
    | nil => unfold emailDomainScore; exact le_rfl
    | cons cur rest =>
        unfold emailDomainScore
        dsimp only
        split_ifs
        · rw [mkRat_eq_div2, mkRat_eq_div2]; norm_num
        · exact le_rfl
  refine ⟨?_, ?_, ?_⟩
  · intro hs
    by_cases h0 : email = ""
    · subst h0; exact absurd hs (by decide)
    · unfold compareEmail
      rw [if_neg h0]
      rcases hlp : pyLocalPart email with _ | lp <;> dsimp only
      · rw [hlp] at hs; exact absurd hs (by simp)
      · split_ifs with h1 h2
        · rw [mkRat_eq_div2, mkRat_eq_div2]; norm_num
        · cases hvp : patternLoop sim (pyLower lp)
              (emailPatterns ((pySplit (pyLower (normalizeText deaccent nm))).headD "")
                ((pySplit (pyLower (normalizeText deaccent nm))).getLastD "")) with
          | none => exact hdom email exps
          | some v =>
              dsimp only
              rcases patternLoop_mem hvp with hv | hv <;> subst hv <;>
                (rw [mkRat_eq_div2, mkRat_eq_div2]; norm_num)
        · exact hdom email exps
  · intro h
    unfold compareEmail
    by_cases h0 : email = ""
    · rw [if_pos h0]
    · rw [if_neg h0, h]
  · intro h
    unfold compareEmail
    rw [if_pos h]

/-- C5 counterexample: a nonempty email without an `@` scores exactly 0,
not at least 0.2. -/
theorem email_nonempty_zero_cex :
    ("invalid" : String) ≠ ""
  ∧ compareEmail simZero id "invalid" "John Smith" [] = 0 :=
  ⟨by decide, by decide⟩

/-- C5 witness: a well-formed email scores at least 0.2 and the empty
email scores 0. -/
theorem email_score_floor_wit :
    (pyLocalPart "zz@nomatch.com").isSome = true
  ∧ mkRat 2 10 ≤ compareEmail simHalf id "zz@nomatch.com" "Bob Jones" [⟨"Acme"⟩]
  ∧ compareEmail simHalf id "" "Bob Jones" [⟨"Acme"⟩] = 0 :=
  ⟨by decide,
   (email_score_floor simHalf id "zz@nomatch.com" "Bob Jones" [⟨"Acme"⟩]).1 (by decide),
   (email_score_floor simHalf id "" "Bob Jones" [⟨"Acme"⟩]).2.2 rfl⟩

/-- C3 (amended): an email local-part exactly equal to the first
constructed pattern `first.last` scores 0.9 — provided it does not occur
inside the space-stripped profile name, which is checked earlier at the
0.8 tier.  Exact matches on the later patterns can be preempted: the
`firstlast` pattern of a two-token name is always a substring of the
space-stripped name (0.8), and an earlier pattern with similarity above
0.8 returns 0.7 before a later exact match is reached. -/
theorem email_first_dot_last_score (sim : String → String → ℚ)
    (deaccent : String → String) (email nm : String)
    (exps : List ExperienceEntry) (lp : String)
    (hlp : pyLocalPart email = some lp)
    (hnotin : pyIn (pyLower lp)
        (pyLower (removeSpaces (normalizeText deaccent nm))) = false)
    (hlen : 2 ≤ (pySplit (pyLower (normalizeText deaccent nm))).length)
    (hpat : pyLower lp
        = (pySplit (pyLower (normalizeText deaccent nm))).headD "" ++ "."
          ++ (pySplit (pyLower (normalizeText deaccent nm))).getLastD "") :
    compareEmail sim deaccent email nm exps = mkRat 9 10 := by
  have h0 : email ≠ "" := by
    intro h; subst h; simp [pyLocalPart] at hlp
  unfold compareEmail
  rw [if_neg h0, hlp]
  dsimp only
  rw [if_neg (by simp [hnotin]), if_pos hlen]
  rw [show patternLoop sim (pyLower lp)
      (emailPatterns ((pySplit (pyLower (normalizeText deaccent nm))).headD "")
        ((pySplit (pyLower (normalizeText deaccent nm))).getLastD ""))
      = some (mkRat 9 10) from by
    unfold emailPatterns patternLoop
    rw [if_pos hpat]]

/-- C3 counterexample: the local-part `johnsmith` is exactly the
`firstlast` pattern for the profile name `John Smith`, yet the sub-score
is 0.8 (the substring-of-name tier), not 0.9. -/
theorem email_pattern_nine_cex :
    pyLocalPart "johnsmith@example.com" = some "johnsmith"
  ∧ pySplit (pyLower (normalizeText id "John Smith")) = ["john", "smith"]
  ∧ "johnsmith" ∈ emailPatterns "john" "smith"
  ∧ compareEmail simZero id "johnsmith@example.com" "John Smith" [] = mkRat 8 10
  ∧ mkRat 8 10 ≠ mkRat 9 10 :=
  ⟨by decide, by decide, by decide, by decide, by decide⟩

/-- C3 witness: a `first.last` local-part scores 0.9. -/
theorem email_first_dot_last_score_wit :
    pyLocalPart "john.smith@example.com" = some "john.smith"
  ∧ compareEmail simHalf id "john.smith@example.com" "John Smith" [] = mkRat 9 10 :=
  ⟨by decide,
   email_first_dot_last_score simHalf id "john.smith@example.com" "John Smith"
     [] "john.smith" (by decide) (by decide) (by decide) (by decide)⟩

/-- The invocation count of the retry loop is bounded by the remaining
attempts. -/
theorem retryGo_count (action : ℕ → Except ε α) (retryable : ε → Bool) :
    ∀ (n att : ℕ), (retryGo action retryable att n).2 ≤ att + n + 1 := by
  intro n
  induction n with
  | zero =>
      intro att
      unfold retryGo
      cases action att <;> dsimp only <;> omega
  | succ n ih =>
      intro att
      unfold retryGo
      cases hact : action att with
      | ok v => dsimp only; omega
      | error e =>
          dsimp only
          split_ifs
          · have := ih (att + 1); omega
          · omega

/-- The retry loop returns the first success after retryable failures. -/
theorem retryGo_ok (action : ℕ → Except ε α) (retryable : ε → Bool) :
    ∀ (n att k : ℕ) (v : α), att ≤ k → k ≤ att + n →
      (∀ j, att ≤ j → j < k → ∃ e, action j = .error e ∧ retryable e = true) →
      action k = .ok v →
      retryGo action retryable att n = (.ok v, k + 1) := by
  intro n
  induction n with
  | zero =>
      intro att k v h1 h2 hfail hk
      have hka : k = att := by omega
      subst hka
      unfold retryGo
      rw [hk]
  | succ n ih =>
      intro att k v h1 h2 hfail hk
      by_cases hka : k = att
      · subst hka; unfold retryGo; rw [hk]
      · have hlt : att < k := by omega
        obtain ⟨e, he, hr⟩ := hfail att le_rfl hlt
        unfold retryGo
        rw [he]
        dsimp only
        rw [if_pos hr]
        exact ih (att + 1) k v (by omega) (by omega)
          (fun j hj1 hj2 => hfail j (by omega) hj2) hk

/-- When every remaining attempt fails retryably, the loop re-raises the
failure of the last attempt. -/
theorem retryGo_allfail (action : ℕ → Except ε α) (retryable : ε → Bool) :
    ∀ (n att : ℕ) (e : ε),
      (∀ j, att ≤ j → j < att + n → ∃ e2, action j = .error e2 ∧ retryable e2 = true) →
      action (att + n) = .error e →
      retryGo action retryable att n = (.error e, att + n + 1) := by
  intro n
  induction n with
  | zero =>
      intro att e _ hk
      unfold retryGo
      rw [show att + 0 = att from rfl] at hk
      rw [hk]
  | succ n ih =>
      intro att e hfail hk
      obtain ⟨e2, he2, hr2⟩ := hfail att le_rfl (by omega)
      unfold retryGo
      rw [he2]
      dsimp only
      rw [if_pos hr2]
      have harith : att + 1 + n = att + (n + 1) := by omega
      have hk2 : action (att + 1 + n) = .error e := by rw [harith]; exact hk
      have hrec := ih (att + 1) e
        (fun j hj1 hj2 => hfail j (by omega) (by omega)) hk2
      rw [hrec, harith]

/-- A non-retryable failure propagates at once. -/
theorem retryGo_nonretry (action : ℕ → Except ε α) (retryable : ε → Bool) :
    ∀ (n att k : ℕ) (e : ε), att ≤ k → k ≤ att + n →
      (∀ j, att ≤ j → j < k → ∃ e2, action j = .error e2 ∧ retryable e2 = true) →
      action k = .error e → retryable e = false →
      retryGo action retryable att n = (.error e, k + 1) := by
  intro n
  induction n with
  | zero =>
      intro att k e h1 h2 hfail hk hr
      have hka : k = att := by omega
      subst hka
      unfold retryGo
      rw [hk]
  | succ n ih =>
      intro att k e h1 h2 hfail hk hr
      by_cases hka : k = att
      · subst hka
        unfold retryGo
        rw [hk]
        dsimp only
        rw [if_neg (by simp [hr])]
      · have hlt : att < k := by omega
        obtain ⟨e2, he2, hr2⟩ := hfail att le_rfl hlt
        unfold retryGo
        rw [he2]
        dsimp only
        rw [if_pos hr2]
        exact ih (att + 1) k e (by omega) (by omega)
          (fun j hj1 hj2 => hfail j (by omega) hj2) hk hr

/-- C7: `retry_async` invokes the action at most `maxRetries + 1` times;
the first success after retryable failures is returned with exactly that
many invocations; when every attempt fails retryably the failure of the
last attempt is re-raised after `maxRetries + 1` invocations; and a
non-retryable failure propagates at once without consuming the remaining
attempts. -/
theorem retry_async_spec (action : ℕ → Except ε α) (retryable : ε → Bool)
    (maxRetries : ℕ) :
    (retryRun action retryable maxRetries).2 ≤ maxRetries + 1
  ∧ (∀ k v, k ≤ maxRetries →
      (∀ j, j < k → ∃ e, action j = .error e ∧ retryable e = true) →
      action k = .ok v →
      retryRun action retryable maxRetries = (.ok v, k + 1))
  ∧ (∀ e, (∀ j, j < maxRetries → ∃ e2, action j = .error e2 ∧ retryable e2 = true) →
      action maxRetries = .error e →
      retryRun action retryable maxRetries = (.error e, maxRetries + 1))
  ∧ (∀ k e, k ≤ maxRetries →
      (∀ j, j < k → ∃ e2, action j = .error e2 ∧ retryable e2 = true) →
      action k = .error e → retryable e = false →
      retryRun action retryable maxRetries = (.error e, k + 1)) := by
  refine ⟨?_, ?_, ?_, ?_⟩
  · have := retryGo_count action retryable maxRetries 0
    unfold retryRun
    omega
  · intro k v hk hfail hsucc
    unfold retryRun
    exact retryGo_ok action retryable maxRetries 0 k v (by omega) (by omega)
      (fun j _ hj => hfail j hj) hsucc
  · intro e hfail hlast
    unfold retryRun
    have h := retryGo_allfail action retryable maxRetries 0 e
      (fun j _ hj => hfail j (by omega))
      (by rw [show (0:ℕ) + maxRetries = maxRetries by omega]; exact hlast)
    rw [h, show (0:ℕ) + maxRetries = maxRetries by omega]
  · intro k e hk hfail hlast hr
    unfold retryRun
    exact retryGo_nonretry action retryable maxRetries 0 k e (by omega) (by omega)
      (fun j _ hj => hfail j hj) hlast hr

/-- C7 witness: an action that fails twice then succeeds, with
`maxRetries = 3`, returns the success value after exactly three
invocations (and the count bound holds). -/
theorem retry_async_spec_wit :
    retryRun actTwoFail (fun _ => true) 3 = (.ok 42, 3)
  ∧ (retryRun actTwoFail (fun _ => true) 3).2 ≤ 4 := by
  have h := retry_async_spec actTwoFail (fun _ => true) 3
  refine ⟨?_, h.1⟩
  refine h.2.1 2 42 (by omega) ?_ rfl
  intro j hj
  refine ⟨0, ?_, rfl⟩
  unfold actTwoFail
  rw [if_pos hj]

/-- C8: when the retry-wrapped search stage yields an empty candidate URL,
`hunt_profile` returns — rather than raises — the fully-populated
not-found record: confidence string `"0%"`, the not-found profile-URL
sentinel, empty experience, education and skills lists, and the fixed
profile-not-found analysis message. -/
theorem hunt_profile_not_found (sim : String → String → ℚ)
    (deaccent : String → String) (fmt : ℚ → String)
    (find : ℕ → Except ε SearchResult) (scrape : ℕ → Except ε ProfileData)
    (analyze : ℕ → Except ε String) (maxRetries : ℕ)
    (name email company : String) (sr : SearchResult)
    (hfind : (retryRun find (fun _ => true) maxRetries).1 = .ok sr)
    (hurl : sr.url = "") :
    huntProfile sim deaccent fmt find scrape analyze maxRetries name email company
      = .ok (notFoundResult name email company)
  ∧ (notFoundResult name email company).confiabilidade = "0%"
  ∧ (notFoundResult name email company).linkedin = "Perfil não encontrado"
  ∧ (notFoundResult name email company).experienciaAnterior = []
  ∧ (notFoundResult name email company).formacao = []
  ∧ (notFoundResult name email company).habilidades = []
  ∧ (notFoundResult name email company).analisePerfil
      = "Não foi possível encontrar um perfil do LinkedIn correspondente aos dados fornecidos." := by
  refine ⟨?_, rfl, rfl, rfl, rfl, rfl, rfl⟩
  unfold huntProfile
  rw [hfind]
  dsimp only
  rw [if_pos hurl]

/-- C8 witness: a concrete empty-URL search result produces exactly the
not-found record. -/
theorem hunt_profile_not_found_wit :
    (retryRun findEmpty (fun _ => true) 3).1 = .ok ⟨"", 0⟩
  ∧ huntProfile simHalf id fmtQ findEmpty scrapeFail analyzeFail 3 "a" "b" "c"
      = .ok (notFoundResult "a" "b" "c") :=
  ⟨rfl,
   (hunt_profile_not_found simHalf id fmtQ findEmpty scrapeFail analyzeFail 3
     "a" "b" "c" ⟨"", 0⟩ rfl rfl).1⟩

/-- The shape of a profile-URL regex match: scheme, optional `www.`,
`linkedin.com/in/`, a nonempty handle of `[\w\-]` characters, an optional
slash and a delimiter-free tail. -/
def IsProfileUrlChars (m : List Char) : Prop :=
  ∃ s w handle slash tl,
    m = "http".data ++ s ++ "://".data ++ w ++ "linkedin.com/in/".data
        ++ handle ++ slash ++ tl
    ∧ (s = [] ∨ s = ['s'])
    ∧ (w = [] ∨ w = "www.".data)
    ∧ handle ≠ []
    ∧ handle.all handleChar = true
    ∧ (slash = [] ∨ slash = ['/'])
    ∧ tl.all tailChar = true

/-- A successful literal match splits the input. -/
theorem dropLit_append : ∀ (l cs r : List Char), dropLit l cs = some r →
    cs = l ++ r := by
  intro l
  induction l with
  | nil => intro cs r h; unfold dropLit at h; cases h; rfl
  | cons a l ih =>
      intro cs r h
      cases cs with
      | nil => exact absurd h (by simp [dropLit])
      | cons c cs =>
          unfold dropLit at h
          split_ifs at h with hc
          · rw [List.cons_append, ← ih cs r h, hc]

/-- Case analysis for the optional-character matcher. -/
theorem optChar_eq (ch : Char) (cs a b : List Char) :
    optChar ch cs = (a, b) → (a = [] ∧ b = cs) ∨ (a = [ch] ∧ cs = ch :: b) := by
  unfold optChar
  cases cs with
  | nil => intro h; cases h; exact Or.inl ⟨rfl, rfl⟩
  | cons c rest =>
      dsimp only
      split_ifs with hc
      · intro h; cases h; exact Or.inr ⟨by rw [hc], by rw [hc]⟩
      · intro h; cases h; exact Or.inl ⟨rfl, rfl⟩

/-- The first component of the optional-character matcher. -/
theorem optChar_fst (ch : Char) (cs : List Char) :
    (optChar ch cs).1 = [] ∨ (optChar ch cs).1 = [ch] := by
  unfold optChar
  cases cs with
  | nil => exact Or.inl rfl
  | cons c rest =>
      dsimp only
      split_ifs with hc
      · exact Or.inr (by rw [hc])
      · exact Or.inl rfl

/-- All characters kept by `takeWhile` satisfy the predicate. -/
theorem takeWhile_all (p : Char → Bool) (l : List Char) :
    (l.takeWhile p).all p = true :=
  List.all_eq_true.mpr fun _ hx => List.mem_takeWhile_imp hx

/-- Every successful match of the profile-URL regex has the profile-link
shape. -/
theorem matchProfileAt_shape {cs m rest : List Char}
    (h : matchProfileAt cs = some (m, rest)) : IsProfileUrlChars m := by
  unfold matchProfileAt at h
  cases h1 : dropLit "http".data cs with
  | none => rw [h1] at h; exact absurd h (by simp)
  | some r1 =>
      rw [h1] at h
      dsimp only at h
      cases h3 : dropLit "://".data (optChar 's' r1).2 with
      | none => rw [h3] at h; exact absurd h (by simp)
      | some r3 =>
          rw [h3] at h
          dsimp only at h
          cases h4 : dropLit "www.".data r3 with
          | none =>
              rw [h4] at h
              dsimp only at h
              cases h5 : dropLit "linkedin.com/in/".data r3 with
              | none => rw [h5] at h; exact absurd h (by simp)
              | some r5 =>
                  rw [h5] at h
                  dsimp only at h
                  split_ifs at h with h6
                  rw [Option.some.injEq, Prod.mk.injEq] at h
                  obtain ⟨hm, hr⟩ := h
                  refine ⟨(optChar 's' r1).1, [], r5.takeWhile handleChar,
                    (optChar '/' (r5.dropWhile handleChar)).1,
                    ((optChar '/' (r5.dropWhile handleChar)).2.takeWhile tailChar),
                    hm.symm, optChar_fst 's' r1, Or.inl rfl, h6,
                    takeWhile_all handleChar r5, optChar_fst '/' _,
                    takeWhile_all tailChar _⟩
          | some r4 =>
              rw [h4] at h
              dsimp only at h
              cases h5 : dropLit "linkedin.com/in/".data r4 with
              | none => rw [h5] at h; exact absurd h (by simp)
              | some r5 =>
                  rw [h5] at h
                  dsimp only at h
                  split_ifs at h with h6
                  rw [Option.some.injEq, Prod.mk.injEq] at h
                  obtain ⟨hm, hr⟩ := h
                  refine ⟨(optChar 's' r1).1, "www.".data, r5.takeWhile handleChar,
                    (optChar '/' (r5.dropWhile handleChar)).1,
                    ((optChar '/' (r5.dropWhile handleChar)).2.takeWhile tailChar),
                    hm.symm, optChar_fst 's' r1, Or.inr rfl, h6,
                    takeWhile_all handleChar r5, optChar_fst '/' _,
                    takeWhile_all tailChar _⟩

/-- Every element produced by the scan is a regex match. -/
theorem findallGo_shape : ∀ (fuel : ℕ) (cs m : List Char),
    m ∈ findallGo fuel cs → IsProfileUrlChars m := by
  intro fuel
  induction fuel with
  | zero => intro cs m h; simp [findallGo] at h
  | succ fuel ih =>
      intro cs m h
      cases cs with
      | nil => simp [findallGo] at h
      | cons c cs2 =>
          unfold findallGo at h
          cases hma : matchProfileAt (c :: cs2) with
          | none => rw [hma] at h; exact ih cs2 m h
          | some pr =>
              obtain ⟨m2, rest⟩ := pr
              rw [hma] at h
              dsimp only at h
              rcases List.mem_cons.mp h with h | h
              · subst h; exact matchProfileAt_shape hma
              · exact ih rest m h

/-- The de-duplicated list is a sublist (order preserved). -/
theorem dedupAux_sublist : ∀ (l seen : List (List Char)),
    List.Sublist (dedupAux seen l) l := by
  intro l
  induction l with
  | nil => intro seen; simp [dedupAux]
  | cons x xs ih =>
      intro seen
      unfold dedupAux
      split_ifs
      · exact (ih seen).trans (List.sublist_cons_self x xs)
      · exact List.Sublist.cons₂ x (ih (x :: seen))

/-- Membership in the de-duplicated list. -/
theorem dedupAux_mem : ∀ (l seen : List (List Char)) (x : List Char),
    x ∈ dedupAux seen l ↔ (x ∈ l ∧ x ∉ seen) := by
  intro l
  induction l with
  | nil => intro seen x; simp [dedupAux]
  | cons y ys ih =>
      intro seen x
      unfold dedupAux
      split_ifs with hy
      · rw [ih]
        constructor
        · rintro ⟨h1, h2⟩; exact ⟨List.mem_cons_of_mem y h1, h2⟩
        · rintro ⟨h1, h2⟩
          rcases List.mem_cons.mp h1 with h | h
          · subst h; exact absurd hy h2
          · exact ⟨h, h2⟩
      · constructor
        · intro hx
          rcases List.mem_cons.mp hx with h | h
          · subst h; exact ⟨List.mem_cons_self _ _, hy⟩
          · obtain ⟨h1, h2⟩ := (ih (y :: seen) x).mp h
            exact ⟨List.mem_cons_of_mem y h1,
              fun hc => h2 (List.mem_cons_of_mem y hc)⟩
        · rintro ⟨h1, h2⟩
          rcases List.mem_cons.mp h1 with h | h
          · subst h; exact List.mem_cons_self _ _
          · by_cases hxy : x = y
            · subst hxy; exact List.mem_cons_self _ _
            · refine List.mem_cons_of_mem y ((ih (y :: seen) x).mpr ⟨h, ?_⟩)
              intro hc
              rcases List.mem_cons.mp hc with hc2 | hc2
              · exact hxy hc2
              · exact h2 hc2

/-- The de-duplicated list has no duplicates. -/
theorem dedupAux_nodup : ∀ (l seen : List (List Char)),
    (dedupAux seen l).Nodup := by
  intro l
  induction l with
  | nil => intro seen; simp [dedupAux]
  | cons y ys ih =>
      intro seen
      unfold dedupAux
      split_ifs with hy
      · exact ih seen
      · refine List.nodup_cons.mpr ⟨?_, ih (y :: seen)⟩
        intro hc
        exact ((dedupAux_mem ys (y :: seen) y).mp hc).2 (List.mem_cons_self _ _)

/-- `String.mk` is injective. -/
theorem stringMk_inj : Function.Injective String.mk :=
  fun _ _ h => congrArg String.data h

/-- C9: the extracted URL list has no duplicates; a URL is returned
exactly when the profile-URL regex matches it somewhere in the HTML;
the output preserves the left-to-right first-seen order of the matches;
and every returned URL has the profile-link `/in/<handle>` shape — never a
link of another shape such as a `/company/` URL. -/
theorem extract_profile_urls_spec (html : String) :
    (extractLinkedInProfileUrls html).Nodup
  ∧ (∀ u : String, u ∈ extractLinkedInProfileUrls html
      ↔ u.data ∈ findallProfile html.data)
  ∧ List.Sublist ((extractLinkedInProfileUrls html).map String.data)
      (findallProfile html.data)
  ∧ (∀ u : String, u ∈ extractLinkedInProfileUrls html →
      IsProfileUrlChars u.data) := by
  have hmem : ∀ u : String, u ∈ extractLinkedInProfileUrls html
      ↔ u.data ∈ findallProfile html.data := by
    intro u
    unfold extractLinkedInProfileUrls dedupKeepFirst
    rw [List.mem_map]
    constructor
    · rintro ⟨cs, hcs, rfl⟩
      exact ((dedupAux_mem _ [] cs).mp hcs).1
    · intro hu
      refine ⟨u.data, (dedupAux_mem _ [] u.data).mpr ⟨hu, by simp⟩, ?_⟩
      cases u; rfl
  refine ⟨?_, hmem, ?_, ?_⟩
  · exact (dedupAux_nodup _ []).map stringMk_inj
  · unfold extractLinkedInProfileUrls dedupKeepFirst
    rw [List.map_map]
    have : String.data ∘ String.mk = id := by funext cs; rfl
    rw [this, List.map_id]
    exact dedupAux_sublist _ []
  · intro u hu
    exact findallGo_shape _ _ _ ((hmem u).mp hu)

set_option maxRecDepth 8192 in
/-- C9 witness: the search-page HTML with three distinct profile links
(one of them repeated) and one company link yields exactly the three
profile URLs, first-seen order preserved, company link excluded. -/
theorem extract_profile_urls_spec_wit :
    (extractLinkedInProfileUrls searchHtml).Nodup
  ∧ extractLinkedInProfileUrls searchHtml
      = ["https://www.linkedin.com/in/profile1",
         "https://linkedin.com/in/profile2",
         "http://www.linkedin.com/in/profile3/"] :=
  ⟨(extract_profile_urls_spec searchHtml).1, by decide⟩

end LinkedInHunter
